import Mathlib

/-!
Verification of the scalar autograd engine in `src/lib.rs` (crate `rusty_nn`).

The Rust source defines an enum `Operations { Add, Sub, Mul, Tanh, Non }`
and a struct `Val { data: f64, grad: f64, prev: Vec<Val>, op: Operations,
backward: Option<Box<dyn Fn()>> }` together with constructors
`Val::new`, `Val::tanh` and operator overloads for `Neg`, `Add`, `Sub`, `Mul`.

Embedding notes:
* `f64` scalars are embedded as real numbers `ℝ`; the constructors apply the
  same arithmetic expressions the source applies to its scalar type.
* `prev: Vec<Val>` owns its elements (operands are moved in), so a `Val` is a
  finite tree; we embed it as a nested inductive type.
* The `backward: Option<Box<dyn Fn()>>` field is omitted from the embedding:
  `Val::new` initialises it to `None`, and the only write to it (the closure in
  the `Add` overload, which uses `self` after it was moved into `result.prev`)
  is rejected by the Rust compiler, so on every constructible value the field
  is `None` and carries no information.
* The backward pass invoked by the `prp` test (`o.backward()`) has no
  definition in the source; where a claim depends on it, the engine is
  modelled from the specification (see `propagate`, `Val.backward`,
  `gstep`, `gbackward` below, each marked `Modelled from the spec:`).
-/

/-- The `Operations` enum of the source: `Add, Sub, Mul, Tanh, Non`.
`Non` is the tag `Val::new` gives to leaves; there is no `Neg` or `Leaf`
variant. -/
inductive Operations : Type
  | Add
  | Sub
  | Mul
  | Tanh
  | Non
deriving DecidableEq, Repr

/-- The `Val` struct: `data`, `grad`, the owned operand vector `prev`, and the
operation tag `op`.  Since `prev: Vec<Val>` owns its elements, values are
finite trees. -/
inductive Val : Type
  | mk (data : ℝ) (grad : ℝ) (prev : List Val) (op : Operations)

/-- Field accessor for `data`. -/
def Val.data : Val → ℝ
  | .mk d _ _ _ => d

/-- Field accessor for `grad`. -/
def Val.grad : Val → ℝ
  | .mk _ g _ _ => g

/-- Field accessor for `prev`. -/
def Val.prev : Val → List Val
  | .mk _ _ p _ => p

/-- Field accessor for `op`. -/
def Val.op : Val → Operations
  | .mk _ _ _ o => o

/-- `Val::new(d)`: `Val { data: d, grad: 0.0, prev: Vec::new(), op: Non,
backward: None }`. -/
def Val.new (d : ℝ) : Val := .mk d 0 [] .Non

/-- The closed-form hyperbolic tangent used by `Val::tanh`:
`((2.0 * x).exp() - 1.0) / ((2.0 * x).exp() + 1.0)`. -/
noncomputable def tanhFormula (x : ℝ) : ℝ :=
  (Real.exp (2 * x) - 1) / (Real.exp (2 * x) + 1)

/-- `Val::tanh`: builds `Val::new(t)` with `t` the closed-form tanh of
`self.data`, pushes `self` onto `prev`, sets `grad` to `1.0` (source line
`result.grad = 1.0;`) and the tag to `Tanh`. -/
noncomputable def Val.tanh (v : Val) : Val :=
  .mk (tanhFormula v.data) 1 [v] .Tanh

/-- The `Neg` overload: `fn neg(mut self) { self.data = -self.data; self }` —
it negates the operand's own `data` field in place and returns the operand
itself; no new node is created, `grad`, `prev` and `op` are the operand's. -/
def Val.neg (v : Val) : Val :=
  .mk (-v.data) v.grad v.prev v.op

/-- The `Add` overload: `Val::new(self.data + rhs.data)` with `prev = [self,
rhs]` and tag `Add`.  (The subsequent `set_backward` closure in the source
uses `self` after it was moved and does not compile; it is dead text and
changes nothing observable.) -/
def Val.add (a b : Val) : Val :=
  .mk (a.data + b.data) 0 [a, b] .Add

/-- The `Sub` overload: `Val::new(self.data - rhs.data)` with `prev = [self,
rhs]` and tag `Sub`. -/
def Val.sub (a b : Val) : Val :=
  .mk (a.data - b.data) 0 [a, b] .Sub

/-- The `Mul` overload: `Val::new(self.data * rhs.data)` with `prev = [self,
rhs]` and tag `Mul`. -/
def Val.mul (a b : Val) : Val :=
  .mk (a.data * b.data) 0 [a, b] .Mul

/-- Modelled from the spec: the propagation step of the Backward Engine
(spec §4.2), which is missing from the source (`o.backward()` in the `prp`
test has no definition; `set_backward` only stores a closure and its one use
site does not compile).  Since `prev` owns its operands, a constructible
graph is a tree, and the spec's reverse-topological traversal with
accumulation specialises to structural recursion: a node's final gradient is
its stored gradient plus the contribution `e` arriving from its unique
parent, and it distributes contributions to its operands by the local rule of
its tag (§4.1 table: `Add` sends `g`, `Sub` sends `g` and `-g`, `Mul` sends
the other operand's value times `g`, `Tanh` sends `(1 - t^2) * g` with `t`
the closed-form tanh of the operand's value).  Tags with no matching operand
arity (never produced by the constructors) distribute nothing. -/
noncomputable def propagate : ℝ → Val → Val
  | e, .mk d g ps o =>
    match o, ps with
    | .Add, [a, b] =>
        .mk d (g + e) [propagate (g + e) a, propagate (g + e) b] .Add
    | .Sub, [a, b] =>
        .mk d (g + e) [propagate (g + e) a, propagate (-(g + e)) b] .Sub
    | .Mul, [a, b] =>
        .mk d (g + e) [propagate (b.data * (g + e)) a,
                       propagate (a.data * (g + e)) b] .Mul
    | .Tanh, [a] =>
        .mk d (g + e) [propagate ((1 - tanhFormula a.data ^ 2) * (g + e)) a]
          .Tanh
    | o, ps => .mk d (g + e) ps o

/-- Modelled from the spec: `backward(output)` (spec §4.2) — seed the output
node's gradient to `1.0`, then propagate contributions through the reachable
subgraph in reverse topological order. -/
noncomputable def Val.backward : Val → Val
  | .mk d _ ps o => propagate 0 (.mk d 1 ps o)

/-- C3: For all operand values, the constructors produce forward values
matching the closed-form table: `add` yields `a + b`, `sub` yields `a - b`,
`mul` yields `a * b`, `neg` yields `-a` (exact equality), and `tanh` of `x`
yields `(e^(2x) - 1) / (e^(2x) + 1)` within `1e-12` absolute tolerance. -/
theorem C3_forward_values (a b : Val) :
    (a.add b).data = a.data + b.data ∧
    (a.sub b).data = a.data - b.data ∧
    (a.mul b).data = a.data * b.data ∧
    a.neg.data = -a.data ∧
    |a.tanh.data - (Real.exp (2 * a.data) - 1) / (Real.exp (2 * a.data) + 1)|
      < 1e-12 := by
  refine ⟨rfl, rfl, rfl, rfl, ?_⟩
  simp only [Val.tanh, Val.data, tanhFormula, sub_self, abs_zero]
  norm_num

/-- C4 counterexample: the claim says the gradient of a node is `0.0`
immediately after construction by any constructor, but `Val::tanh` sets
`result.grad = 1.0` at construction time (and the source's own `prp` test
asserts `o.grad == 1.0` before any backward call). -/
theorem C4_counterexample : (Val.tanh (Val.new 0)).grad ≠ 0 := by
  simp only [Val.tanh, Val.grad]
  norm_num

/-- C4 (amended): after construction and before any backward call, the
gradient is exactly `0.0` for nodes built by `new`, `add`, `sub` and `mul`;
`tanh` sets the result's gradient to `1.0`, and `neg` returns its operand,
keeping the operand's gradient. -/
theorem C4_grad_after_construction (d : ℝ) (a b : Val) :
    (Val.new d).grad = 0 ∧
    (a.add b).grad = 0 ∧
    (a.sub b).grad = 0 ∧
    (a.mul b).grad = 0 ∧
    a.tanh.grad = 1 ∧
    a.neg.grad = a.grad :=
  ⟨rfl, rfl, rfl, rfl, rfl, rfl⟩

/-- C5 counterexample: the claim says constructing `neg` only reads its
operand's `data`.  But `neg` returns the operand node itself — same `grad`,
`prev` and `op`, no fresh node recording the operand — with the operand's
`data` field overwritten by its negation (`self.data = -self.data`), which at
`Val::new(1)` actually changes the stored value. -/
theorem C5_counterexample :
    (Val.neg (Val.new 1)).prev = [] ∧
    (Val.neg (Val.new 1)).op = Operations.Non ∧
    (Val.neg (Val.new 1)).grad = (Val.new 1).grad ∧
    (Val.neg (Val.new 1)).data = -(Val.new 1).data ∧
    (Val.neg (Val.new 1)).data ≠ (Val.new 1).data := by
  refine ⟨rfl, rfl, rfl, rfl, ?_⟩
  simp only [Val.neg, Val.new, Val.data]
  norm_num

/-- C5 (amended): constructing `add`, `sub`, `mul` or `tanh` never mutates
its operands' `data` — the operands are recorded unchanged in the result's
`prev` list; `neg`, however, mutates its operand in place, negating the
operand's `data` field and returning the operand itself. -/
theorem C5_operand_mutation (a b : Val) :
    (a.add b).prev = [a, b] ∧
    (a.sub b).prev = [a, b] ∧
    (a.mul b).prev = [a, b] ∧
    a.tanh.prev = [a] ∧
    a.neg = Val.mk (-a.data) a.grad a.prev a.op :=
  ⟨rfl, rfl, rfl, rfl, rfl⟩

/-- C6 counterexample: the claim says every node's tag is drawn from
`{Leaf, Neg, Add, Sub, Mul, Tanh}` and that `neg(a)` carries the `Neg` tag.
The source enum has no `Neg` (or `Leaf`) variant at all, and `neg` preserves
the operand's tag instead of setting any fixed one: `neg` of a leaf carries
`Non` while `neg` of a tanh node carries `Tanh`. -/
theorem C6_counterexample :
    (Val.neg (Val.new 0)).op = Operations.Non ∧
    (Val.neg (Val.tanh (Val.new 0))).op = Operations.Tanh ∧
    Operations.Non ≠ Operations.Tanh := by
  refine ⟨rfl, rfl, ?_⟩
  decide

/-- C6 (amended): every node carries a tag drawn from
`{Add, Sub, Mul, Tanh, Non}`; `new` gives `Non` (the leaf tag), `add`, `sub`,
`mul`, `tanh` give their own tags, and `neg(a)` carries `a`'s tag — there is
no `Neg` tag. -/
theorem C6_operation_tags (d : ℝ) (a b : Val) :
    (∀ o : Operations, o = .Add ∨ o = .Sub ∨ o = .Mul ∨ o = .Tanh ∨ o = .Non) ∧
    (Val.new d).op = .Non ∧
    (a.add b).op = .Add ∧
    (a.sub b).op = .Sub ∧
    (a.mul b).op = .Mul ∧
    a.tanh.op = .Tanh ∧
    a.neg.op = a.op := by
  refine ⟨?_, rfl, rfl, rfl, rfl, rfl, rfl⟩
  intro o
  cases o <;> simp

/-- C7: each constructor records its inputs in the resulting node's `prev`
list preserving left/right order: `add(a,b)`, `sub(a,b)`, `mul(a,b)` record
exactly `[a, b]`, `tanh(a)` records exactly `[a]`, and a leaf built by `new`
has an empty `prev`. -/
theorem C7_operands_recorded (x : ℝ) (a b : Val) :
    (Val.new x).prev = [] ∧
    (a.add b).prev = [a, b] ∧
    (a.sub b).prev = [a, b] ∧
    (a.mul b).prev = [a, b] ∧
    a.tanh.prev = [a] :=
  ⟨rfl, rfl, rfl, rfl, rfl⟩

/-- C9: negation is an involution — negating twice returns a node whose
`data`, `grad`, `op` and `prev` are exactly those of the original node. -/
theorem C9_neg_involution (v : Val) : v.neg.neg = v := by
  cases v with
  | mk d g p o => simp [Val.neg, Val.data, Val.grad, Val.prev, Val.op]

/-- C10: forward construction is commutative in the computed value: for all
scalar values `a` and `b`, `leaf(a) + leaf(b)` and `leaf(b) + leaf(a)` have
the same `data`, and likewise for `*`; only the order of the recorded
operands differs. -/
theorem C10_commutative_data (a b : ℝ) :
    ((Val.new a).add (Val.new b)).data = ((Val.new b).add (Val.new a)).data ∧
    ((Val.new a).mul (Val.new b)).data = ((Val.new b).mul (Val.new a)).data ∧
    ((Val.new a).add (Val.new b)).prev = [Val.new a, Val.new b] ∧
    ((Val.new b).add (Val.new a)).prev = [Val.new b, Val.new a] := by
  refine ⟨?_, ?_, rfl, rfl⟩ <;>
    simp only [Val.add, Val.mul, Val.new, Val.data] <;> ring

/-- C8: `backward` raises no error on any well-formed graph — it is a total
function that preserves every node's `data`, `op` and operand count — and on
an output node with no operands it sets that node's own gradient to `1.0`
and changes nothing else: no other field of the node, and there is no other
node. -/
theorem C8_backward_total_and_degenerate :
    (∀ v : Val, (Val.backward v).data = v.data ∧ (Val.backward v).op = v.op ∧
      (Val.backward v).prev.length = v.prev.length) ∧
    (∀ (d g : ℝ) (o : Operations),
      Val.backward (Val.mk d g [] o) = Val.mk d 1 [] o) := by
  constructor
  · intro v
    rcases v with ⟨d, g, ps, o⟩
    cases o <;> rcases ps with _ | ⟨a, _ | ⟨b, _ | ⟨c, t⟩⟩⟩ <;>
      simp [Val.backward, propagate, Val.data, Val.op, Val.prev]
  · intro d g o
    cases o <;> simp [Val.backward, propagate]

/-- Rational bounds on `exp 0.8813735870195432`, via the degree-13 Taylor
partial sum and the remainder estimate `Real.exp_bound`. -/
lemma exp_q_bounds :
    (2.4142135623 : ℝ) ≤ Real.exp 0.8813735870195432 ∧
    Real.exp (0.8813735870195432 : ℝ) ≤ 2.4142135624 := by
  have h := Real.exp_bound (x := (0.8813735870195432 : ℝ))
    (by rw [abs_of_nonneg] <;> norm_num) (n := 13) (by norm_num)
  have habs : |(0.8813735870195432 : ℝ)| = 0.8813735870195432 := by
    rw [abs_of_nonneg]; norm_num
  rw [habs, abs_le] at h
  obtain ⟨h1, h2⟩ := h
  simp only [Finset.sum_range_succ, Finset.sum_range_zero] at h1 h2
  norm_num [Nat.factorial] at h1 h2
  constructor <;> linarith

/-- The map `x ↦ (x - 1) / (x + 1)` is monotone on positives. -/
lemma div_succ_mono {a b : ℝ} (h : 0 < a) (hab : a ≤ b) :
    (a - 1) / (a + 1) ≤ (b - 1) / (b + 1) := by
  rw [div_le_div_iff₀ (by linarith) (by linarith)]
  nlinarith

/-- Rational bounds on the closed-form tanh at `0.8813735870195432`. -/
lemma tanhq_bounds :
    (0.70710678117 : ℝ) ≤ tanhFormula 0.8813735870195432 ∧
    tanhFormula (0.8813735870195432 : ℝ) ≤ 0.70710678120 := by
  obtain ⟨hl, hu⟩ := exp_q_bounds
  have hexp_pos : (0 : ℝ) < Real.exp 0.8813735870195432 := Real.exp_pos _
  have hE : Real.exp (2 * (0.8813735870195432 : ℝ))
      = Real.exp 0.8813735870195432 * Real.exp 0.8813735870195432 := by
    rw [two_mul, Real.exp_add]
  have hElo : (2.4142135623 : ℝ) * 2.4142135623
      ≤ Real.exp (2 * (0.8813735870195432 : ℝ)) := by
    rw [hE]; nlinarith
  have hEhi : Real.exp (2 * (0.8813735870195432 : ℝ))
      ≤ (2.4142135624 : ℝ) * 2.4142135624 := by
    rw [hE]; nlinarith
  have hEpos : (0 : ℝ) < Real.exp (2 * (0.8813735870195432 : ℝ)) :=
    Real.exp_pos _
  unfold tanhFormula
  constructor
  · calc (0.70710678117 : ℝ)
        ≤ ((2.4142135623 : ℝ) * 2.4142135623 - 1)
            / ((2.4142135623 : ℝ) * 2.4142135623 + 1) := by norm_num
    _ ≤ _ := div_succ_mono (by norm_num) hElo
  · calc (Real.exp (2 * (0.8813735870195432 : ℝ)) - 1)
          / (Real.exp (2 * (0.8813735870195432 : ℝ)) + 1)
        ≤ ((2.4142135624 : ℝ) * 2.4142135624 - 1)
            / ((2.4142135624 : ℝ) * 2.4142135624 + 1) :=
      div_succ_mono hEpos hEhi
    _ ≤ (0.70710678120 : ℝ) := by norm_num

/-- Convenience observer: the `i`-th recorded operand of a node (the `i`-th
element of its `prev` vector). -/
def Val.child (v : Val) (i : ℕ) : Val := v.prev.getD i (Val.new 0)

/-- The output node of the worked network of the `prp` test:
`tanh((x1 * w1 + x2 * w2) + b)` with `x1 = 2.0`, `x2 = 0.0`, `w1 = -3.0`,
`w2 = 1.0`, `b = 6.8813735870195432`. -/
noncomputable def prpOutput : Val :=
  Val.tanh (Val.add
    (Val.add (Val.mul (Val.new 2.0) (Val.new (-3.0)))
             (Val.mul (Val.new 0.0) (Val.new 1.0)))
    (Val.new 6.8813735870195432))

/-- The worked network after the backward pass. -/
noncomputable def prpResult : Val := Val.backward prpOutput

set_option maxHeartbeats 1000000

/-- C1: For the worked network `x1*w1 + x2*w2 + b` followed by `tanh`, with
`x1 = 2.0`, `x2 = 0.0`, `w1 = -3.0`, `w2 = 1.0`, `b = 6.8813735870195432`,
the forward output data is approximately `0.7071067811865477`, and after
calling backward on the output the gradients are `n ≈ 0.5`, `b ≈ 0.5`,
`x1w1 ≈ 0.5`, `x2w2 ≈ 0.5`, `x1 ≈ -1.5`, `w1 ≈ 1.0`, `x2 ≈ 0.5`,
`w2 ≈ 0.0`, all within `1e-9`.  (Node positions: `child 0` of the output is
`n`; `n`'s children are the sum `x1w1 + x2w2` and `b`; the sum's children are
`x1w1` and `x2w2`, whose children are `x1, w1` and `x2, w2`.) -/
theorem C1_prp_network :
    |prpOutput.data - 0.7071067811865477| < 1e-9 ∧
    |(prpResult.child 0).grad - 0.5| < 1e-9 ∧
    |((prpResult.child 0).child 1).grad - 0.5| < 1e-9 ∧
    |(((prpResult.child 0).child 0).child 0).grad - 0.5| < 1e-9 ∧
    |(((prpResult.child 0).child 0).child 1).grad - 0.5| < 1e-9 ∧
    |((((prpResult.child 0).child 0).child 0).child 0).grad - (-1.5)| < 1e-9 ∧
    |((((prpResult.child 0).child 0).child 0).child 1).grad - 1.0| < 1e-9 ∧
    |((((prpResult.child 0).child 0).child 1).child 0).grad - 0.5| < 1e-9 ∧
    |((((prpResult.child 0).child 0).child 1).child 1).grad - 0.0| < 1e-9 := by
  obtain ⟨hTl, hTu⟩ := tanhq_bounds
  have hT2l : (0.70710678117 : ℝ) * 0.70710678117
      ≤ tanhFormula 0.8813735870195432 ^ 2 := by nlinarith
  have hT2u : tanhFormula (0.8813735870195432 : ℝ) ^ 2
      ≤ (0.70710678120 : ℝ) * 0.70710678120 := by nlinarith
  refine ⟨?_, ?_, ?_, ?_, ?_, ?_, ?_, ?_, ?_⟩ <;>
    simp only [prpResult, prpOutput, Val.backward, propagate, Val.child,
      Val.prev, Val.data, Val.grad, Val.new, Val.add, Val.mul, Val.tanh,
      List.getD, List.getElem?_cons_zero, List.getElem?_cons_succ,
      Option.getD_some] <;>
    norm_num <;>
    rw [abs_lt] <;>
    constructor <;>
    nlinarith [hTl, hTu, hT2l, hT2u]

/-- Modelled from the spec: a node of the shared-graph (arena) representation
of §9 — the source cannot express operand sharing at all (its `prev: Vec<Val>`
takes ownership, so `a * b` consumes `a` and `a * c` can no longer use it),
and the spec prescribes an arena of nodes addressed by stable integer
handles.  A node stores its forward `data`, its operation tag, the handles of
its operands (`args`, each smaller than the node's own index, so the arena
order is a topological order), and the operand values captured at creation
time for its local rule (`capt`; spec §3 `local_backward` and §9). -/
structure GNode where
  data : ℝ
  op : Operations
  args : List ℕ
  capt : List ℝ

/-- Add `x` into the gradient accumulator at handle `j`
(`gradient += x`, spec §4.2 step 3). -/
def bump (grads : ℕ → ℝ) (j : ℕ) (x : ℝ) : ℕ → ℝ :=
  fun k => if k = j then grads j + x else grads k

/-- Modelled from the spec: one propagation step of the Backward Engine
(§4.2 step 3) at the node `p.2` with handle `p.1`: read this node's current
(final) gradient once and add the local-rule contributions into each
operand's gradient, using the operand values captured at creation for `Mul`
and `Tanh`. -/
noncomputable def gstep (grads : ℕ → ℝ) (p : ℕ × GNode) : ℕ → ℝ :=
  match p.2.op, p.2.args, p.2.capt with
  | .Add, [a, b], _ => bump (bump grads a (grads p.1)) b (grads p.1)
  | .Sub, [a, b], _ => bump (bump grads a (grads p.1)) b (-(grads p.1))
  | .Mul, [a, b], [da, db] =>
      bump (bump grads a (db * grads p.1)) b (da * grads p.1)
  | .Tanh, [a], [xa] =>
      bump grads a ((1 - tanhFormula xa ^ 2) * grads p.1)
  | _, _, _ => grads

/-- Modelled from the spec: the Backward Engine (§4.2) over an arena graph
whose last node is the output — all gradients start at `0.0`, the output's
gradient is seeded to `1.0`, and the nodes are processed in reverse
topological order (decreasing handle, output first), each adding its
contributions into its operands' gradients. -/
noncomputable def gbackward (g : List GNode) : ℕ → ℝ :=
  g.enum.reverse.foldl gstep (fun j => if j = g.length - 1 then 1 else 0)

/-- The graph `a*b + a*c` in which the leaf `a` (handle 0) is shared by the
two product nodes: handles 0, 1, 2 are the leaves `a`, `b`, `c`; handle 3 is
`a*b`; handle 4 is `a*c`; handle 5, the output, is their sum. -/
noncomputable def sharedGraph (va vb vc : ℝ) : List GNode :=
  [⟨va, .Non, [], []⟩, ⟨vb, .Non, [], []⟩, ⟨vc, .Non, [], []⟩,
   ⟨va * vb, .Mul, [0, 1], [va, vb]⟩,
   ⟨va * vc, .Mul, [0, 2], [va, vc]⟩,
   ⟨va * vb + va * vc, .Add, [3, 4], []⟩]

/-- C2: if a leaf `a` is used as an operand in two independent branches that
both feed the output (here `a*b + a*c`), then after backward is run on the
output, `a`'s gradient equals the sum of the two per-path local
contributions (`b`'s value times the product's gradient `1`, plus `c`'s
value times the other product's gradient `1`), not just one of them. -/
theorem C2_shared_leaf_accumulates (va vb vc : ℝ) :
    gbackward (sharedGraph va vb vc) 0 = vb * 1 + vc * 1 := by
  have h : (sharedGraph va vb vc).enum.reverse =
      [(5, ⟨va * vb + va * vc, .Add, [3, 4], []⟩),
       (4, ⟨va * vc, .Mul, [0, 2], [va, vc]⟩),
       (3, ⟨va * vb, .Mul, [0, 1], [va, vb]⟩),
       (2, ⟨vc, .Non, [], []⟩), (1, ⟨vb, .Non, [], []⟩),
       (0, ⟨va, .Non, [], []⟩)] := rfl
  have hlen : (sharedGraph va vb vc).length = 6 := rfl
  unfold gbackward
  rw [h, hlen]
  simp only [List.foldl, gstep, bump]
  norm_num
  ring
